import Mathlib

/-!
Verification of the SnapStash ingestion and linking pipeline.

Shallow embedding of the Python sources under `webapp/backend/app`:
message merge/dedup (`services/storage.py`), the media linker
(`parsers/_data_linker.py`), the binary message decoder
(`parsers/_protobuf_parser.py`), selective media transfer
(`services/media_discovery.py`), orphan reconciliation
(`services/ingestion_service.py`) and the run-start guards
(`api/ingest.py`, `services/ingest_loop.py`).
-/

set_option maxHeartbeats 1000000

namespace SnapStash

/-! ## Message storage: `StorageService.create_message` / `_update_message_fields` -/

/-- A SQLAlchemy column value: `None`, a string, an integer or a boolean. -/
inductive Value where
  | vNull
  | vStr (s : String)
  | vInt (n : Int)
  | vBool (b : Bool)
deriving DecidableEq, Repr

/-- The columns of the `Message` model that `create_message` reads or writes:
the nine updatable fields, the identity fields, and `updated_at`, which the
merge path rewrites whenever `_update_message_fields` reports a change
(`created_at`, set only by its column default at creation, is not modeled). -/
inductive MsgField where
  | serverMessageId
  | clientMessageId
  | text
  | contentType
  | cacheId
  | readTimestamp
  | parsingSuccessful
  | rawMessageContent
  | mediaAssetId
  | conversationId
  | senderId
  | creationTimestamp
  | updatedAt
deriving DecidableEq, Repr

/-- `updatable_fields` in `StorageService._update_message_fields`. -/
def updatableFields : List MsgField :=
  [MsgField.serverMessageId, MsgField.clientMessageId, MsgField.text,
   MsgField.contentType, MsgField.cacheId, MsgField.readTimestamp,
   MsgField.parsingSuccessful, MsgField.rawMessageContent, MsgField.mediaAssetId]

/-- A persisted message row: a value for every column. -/
def MessageRow : Type := MsgField → Value

/-- Incoming `message_data` dict: `none` means the key is absent. -/
def NewData : Type := MsgField → Option Value

/-- One iteration of the field loop in `_update_message_fields`, for a field
present in `new_data`: preserve an existing non-null, non-empty value against
an incoming `None`/`''`, otherwise update when different and not `None`. -/
def updateField (cur nv : Value) : Value :=
  if (cur ≠ Value.vNull ∧ cur ≠ Value.vStr "") ∧ (nv = Value.vNull ∨ nv = Value.vStr "") then
    cur
  else if nv ≠ cur ∧ nv ≠ Value.vNull then
    if nv = Value.vStr "" ∧ cur ≠ Value.vNull then cur else nv
  else
    cur

/-- `StorageService._update_message_fields`: only fields in `updatable_fields`
that occur in `new_data` are rewritten, each through `updateField`. -/
def updateMessageFields (m : MessageRow) (d : NewData) : MessageRow :=
  fun f =>
    if f ∈ updatableFields then
      match d f with
      | none => m f
      | some nv => updateField (m f) nv
    else
      m f

/-- The `updated` flag returned by `_update_message_fields`: true exactly
when `setattr` ran for some updatable field present in `new_data`, i.e. when
the field's merged value differs from the stored one. -/
def mergeUpdated (m : MessageRow) (d : NewData) : Bool :=
  updatableFields.any fun f =>
    match d f with
    | none => false
    | some nv => decide (updateField (m f) nv ≠ m f)

/-- The full merge step of `create_message` on an existing row: apply
`_update_message_fields`, and when it reported an update also rewrite
`updated_at` to the current time (storage.py line 300). -/
def mergeMessage (m : MessageRow) (d : NewData) (now : Value) : MessageRow :=
  fun f =>
    if f = MsgField.updatedAt then
      if mergeUpdated m d then now else m f
    else
      updateMessageFields m d f

/-- The dedup filter of `create_message`: the stored row has the incoming
`conversation_id` and `creation_timestamp` (both keys present in the dict). -/
def keyMatches (m : MessageRow) (d : NewData) : Bool :=
  match d MsgField.conversationId, d MsgField.creationTimestamp with
  | some cv, some ts =>
      decide (m MsgField.conversationId = cv) && decide (m MsgField.creationTimestamp = ts)
  | _, _ => false

/-- `Message(**message_data)`: absent columns are left at their defaults
(`None`, and the current time for `updated_at`). -/
def newMessageOfData (d : NewData) (now : Value) : MessageRow :=
  fun f => (d f).getD (if f = MsgField.updatedAt then now else Value.vNull)

/-- Walk the store looking for the first row matching the dedup key; when
found, merge the incoming data into it in place. -/
def insertOrMerge (d : NewData) (now : Value) :
    List MessageRow → Option (MessageRow × List MessageRow)
  | [] => none
  | m :: rest =>
      if keyMatches m d then
        some (mergeMessage m d now, mergeMessage m d now :: rest)
      else
        match insertOrMerge d now rest with
        | some (u, r) => some (u, m :: r)
        | none => none

/-- `StorageService.create_message`: returns the affected row, the
newly-created flag, and the resulting store. -/
def createMessage (store : List MessageRow) (d : NewData) (now : Value) :
    MessageRow × Bool × List MessageRow :=
  match insertOrMerge d now store with
  | some (u, newStore) => (u, false, newStore)
  | none => (newMessageOfData d now, true, store ++ [newMessageOfData d now])

theorem insertOrMerge_length (d : NewData) (now : Value) :
    ∀ (store : List MessageRow) (u : MessageRow) (r : List MessageRow),
      insertOrMerge d now store = some (u, r) → r.length = store.length := by
  intro store
  induction store with
  | nil => intro u r h; simp [insertOrMerge] at h
  | cons m rest ih =>
      intro u r h
      simp only [insertOrMerge] at h
      by_cases hk : keyMatches m d
      · simp [hk] at h
        obtain ⟨-, h2⟩ := h
        simp [← h2]
      · simp [hk] at h
        cases hrec : insertOrMerge d now rest with
        | none => rw [hrec] at h; exact absurd h (by simp)
        | some p =>
            rw [hrec] at h
            obtain ⟨u', r'⟩ := p
            simp at h
            obtain ⟨-, h2⟩ := h
            have := ih u' r' hrec
            simp [← h2, this]

theorem insertOrMerge_isSome_of_mem (d : NewData) (now : Value) :
    ∀ (store : List MessageRow), (∃ m ∈ store, keyMatches m d = true) →
      (insertOrMerge d now store).isSome := by
  intro store
  induction store with
  | nil => rintro ⟨m, hm, -⟩; exact absurd hm (by simp)
  | cons a rest ih =>
      rintro ⟨m, hm, hk⟩
      simp only [insertOrMerge]
      by_cases ha : keyMatches a d
      · simp [ha]
      · simp only [ha, if_false]
        rcases List.mem_cons.mp hm with h | h
        · subst h; exact absurd hk ha
        · have := ih ⟨m, h, hk⟩
          cases hrec : insertOrMerge d now rest with
          | none => rw [hrec] at this; simp at this
          | some p => obtain ⟨u', r'⟩ := p; simp

/-- C1: merging into an existing `(conversation_id, creation_timestamp)` key
creates no second row (`created = false`, store size unchanged), and for every
updatable field whose stored value is non-null and non-empty an incoming
null/empty value leaves the stored value unchanged. -/
theorem create_message_merge_preserves_nonnull
    (store : List MessageRow) (d : NewData) (now : Value) (m : MessageRow) (f : MsgField)
    (hex : ∃ m' ∈ store, keyMatches m' d = true) :
    (createMessage store d now).2.1 = false ∧
    (createMessage store d now).2.2.length = store.length ∧
    (f ∈ updatableFields → m f ≠ Value.vNull → m f ≠ Value.vStr "" →
      (d f = some Value.vNull ∨ d f = some (Value.vStr "")) →
      updateMessageFields m d f = m f ∧ mergeMessage m d now f = m f) := by
  have hsome := insertOrMerge_isSome_of_mem d now store hex
  cases hio : insertOrMerge d now store with
  | none => rw [hio] at hsome; simp at hsome
  | some p =>
      obtain ⟨u, r⟩ := p
      refine ⟨?_, ?_, ?_⟩
      · simp [createMessage, hio]
      · simp only [createMessage, hio]
        exact insertOrMerge_length d now store u r hio
      · intro hf hnn hne hde
        have hupd : updateMessageFields m d f = m f := by
          simp only [updateMessageFields, if_pos hf]
          rcases hde with hd | hd <;> rw [hd] <;>
            simp [updateField, hnn, hne]
        refine ⟨hupd, ?_⟩
        have hfu : f ≠ MsgField.updatedAt := by
          intro he
          rw [he] at hf
          exact absurd hf (by decide)
        simp only [mergeMessage, if_neg hfu]
        exact hupd

/-- Concrete stored row with `text="hello"` used by the C1 witness. -/
def sampleStoredMsg : MessageRow := fun f =>
  match f with
  | MsgField.conversationId => Value.vStr "conv1"
  | MsgField.creationTimestamp => Value.vInt 1000
  | MsgField.text => Value.vStr "hello"
  | MsgField.senderId => Value.vStr "alice"
  | _ => Value.vNull

/-- Concrete re-ingested duplicate with `text=None` used by the C1 witness. -/
def sampleIncomingData : NewData := fun f =>
  match f with
  | MsgField.conversationId => some (Value.vStr "conv1")
  | MsgField.creationTimestamp => some (Value.vInt 1000)
  | MsgField.text => some Value.vNull
  | _ => none

theorem create_message_merge_preserves_nonnull_witness :
    (createMessage [sampleStoredMsg] sampleIncomingData (Value.vInt 99)).2.1 = false ∧
    updateMessageFields sampleStoredMsg sampleIncomingData MsgField.text = Value.vStr "hello" ∧
    mergeMessage sampleStoredMsg sampleIncomingData (Value.vInt 99) MsgField.text =
      Value.vStr "hello" := by
  have h := create_message_merge_preserves_nonnull [sampleStoredMsg] sampleIncomingData
      (Value.vInt 99) sampleStoredMsg MsgField.text ⟨sampleStoredMsg, by simp, by decide⟩
  have hp := h.2.2 (by decide) (by decide) (by decide) (Or.inl (by decide))
  refine ⟨h.1, ?_, ?_⟩
  · rw [hp.1]; rfl
  · rw [hp.2]; rfl

/-- Concrete row with an effective text update, used for C10. -/
def sampleFrameRow : MessageRow := fun f =>
  match f with
  | MsgField.text => Value.vStr "hello"
  | MsgField.conversationId => Value.vStr "c"
  | _ => Value.vNull

/-- Concrete incoming data with a changed text, used for C10. -/
def sampleFrameData : NewData := fun f =>
  match f with
  | MsgField.text => some (Value.vStr "world")
  | _ => none

/-- C10 counterexample: an effective merge also rewrites `updated_at`
(storage.py line 300), a column outside the nine updatable fields, so more
than the nine fields can change. -/
theorem merge_changes_updated_at_counterexample :
    MsgField.updatedAt ∉ updatableFields ∧
    sampleFrameRow MsgField.updatedAt = Value.vNull ∧
    mergeMessage sampleFrameRow sampleFrameData (Value.vInt 99) MsgField.updatedAt =
      Value.vInt 99 := by
  decide

/-- C10 amended: a merge can change only the nine updatable fields and
`updated_at`; the identity fields `conversation_id`, `sender_id` and
`creation_timestamp` are unchanged by every merge. -/
theorem merge_message_frame (m : MessageRow) (d : NewData) (now : Value) :
    (∀ f : MsgField, mergeMessage m d now f ≠ m f →
      f ∈ updatableFields ∨ f = MsgField.updatedAt) ∧
    mergeMessage m d now MsgField.conversationId = m MsgField.conversationId ∧
    mergeMessage m d now MsgField.senderId = m MsgField.senderId ∧
    mergeMessage m d now MsgField.creationTimestamp = m MsgField.creationTimestamp := by
  refine ⟨?_, ?_, ?_, ?_⟩
  · intro f hne
    by_cases hu : f = MsgField.updatedAt
    · exact Or.inr hu
    · refine Or.inl ?_
      by_cases hf : f ∈ updatableFields
      · exact hf
      · exact absurd (by simp [mergeMessage, hu, updateMessageFields, hf]) hne
  · simp only [mergeMessage]
    rw [if_neg (by decide)]
    simp only [updateMessageFields]
    rw [if_neg (by decide)]
  · simp only [mergeMessage]
    rw [if_neg (by decide)]
    simp only [updateMessageFields]
    rw [if_neg (by decide)]
  · simp only [mergeMessage]
    rw [if_neg (by decide)]
    simp only [updateMessageFields]
    rw [if_neg (by decide)]

theorem merge_message_frame_witness :
    (MsgField.text ∈ updatableFields ∨ MsgField.text = MsgField.updatedAt) ∧
    mergeMessage sampleFrameRow sampleFrameData (Value.vInt 99) MsgField.conversationId =
      sampleFrameRow MsgField.conversationId := by
  have h := merge_message_frame sampleFrameRow sampleFrameData (Value.vInt 99)
  exact ⟨h.1 MsgField.text (by decide), h.2.1⟩

/-! ## Media linker: `DataLinker` (`parsers/_data_linker.py`) -/

/-- One scanned media file dict as consumed by `link_media_to_messages`. -/
structure MediaFile where
  cache_key : String
  original_filename : String
  sender_id : String
  cache_id : Option String
deriving DecidableEq, Repr

/-- Python `a in b` on strings: `a` occurs in `b` as a substring. -/
def pyIn (a b : String) : Bool := decide (a.data <:+: b.data)

/-- Python `b.startswith(a)`. -/
def pyStartsWith (b a : String) : Bool := decide (a.data <+: b.data)

/-- Python `s.lower()` (ASCII range, character by character). -/
def pyLower (s : String) : String := ⟨s.data.map Char.toLower⟩

/-- Lookup in the `media_by_cache_key` dict comprehension: a later media file
with the same cache key overwrites an earlier one. -/
def lookupByCacheKey (files : List MediaFile) (k : String) : Option MediaFile :=
  files.foldl (fun acc mf => if mf.cache_key = k then some mf else acc) none

/-- `DataLinker.map_cache_id_to_cache_key`: the cache key of the first cache
file claim whose non-empty external key contains the cache id. -/
def mapCacheIdToCacheKey (cacheId : String) (claims : List (String × String)) :
    Option String :=
  if cacheId = "" ∨ claims = [] then none
  else claims.findSome? fun ck =>
    if ck.2 ≠ "" ∧ pyIn cacheId ck.2 = true then some ck.1 else none

/-- The per-message matching chain of `DataLinker.link_media_to_messages`:
method 1 (direct key), method 2 (claim mapping to key), method 2b (mapped key
in filename), method 3 (raw id substring), method 4 (case-insensitive
bidirectional substring). -/
def findMediaAsset (cacheId : String) (files : List MediaFile)
    (claims : List (String × String)) : Option MediaFile :=
  let m1 := lookupByCacheKey files cacheId
  let m2 :=
    match m1 with
    | some a => some a
    | none =>
        match mapCacheIdToCacheKey cacheId claims with
        | some ck =>
            match lookupByCacheKey files ck with
            | some a => some a
            | none =>
                files.find? fun mf =>
                  !(mf.original_filename == "") &&
                  (pyIn ck mf.original_filename || pyStartsWith mf.original_filename ck)
        | none => none
  let m3 :=
    match m2 with
    | some a => some a
    | none =>
        files.find? fun mf =>
          pyIn cacheId mf.original_filename || pyIn cacheId mf.cache_key
  match m3 with
  | some a => some a
  | none =>
      files.find? fun mf =>
        !(cacheId == "") && !(mf.cache_key == "") &&
        (pyIn (pyLower cacheId) (pyLower mf.cache_key) ||
         pyIn (pyLower mf.cache_key) (pyLower cacheId))

/-- First defined value in a list of optional results. -/
def firstSome : List (Option α) → Option α
  | [] => none
  | o :: rest =>
      match o with
      | some a => some a
      | none => firstSome rest

/-- Spec strategy 1: direct equality between the token and a correlation key. -/
def strategyDirectKey (cacheId : String) (files : List MediaFile) : Option MediaFile :=
  lookupByCacheKey files cacheId

/-- Spec strategy 2: cache-mapping indirection, then correlation-key equality. -/
def strategyMappedKey (cacheId : String) (files : List MediaFile)
    (claims : List (String × String)) : Option MediaFile :=
  (mapCacheIdToCacheKey cacheId claims).bind (lookupByCacheKey files)

/-- Spec strategy 3: the mapped cache key occurring in an original filename. -/
def strategyMappedKeyInFilename (cacheId : String) (files : List MediaFile)
    (claims : List (String × String)) : Option MediaFile :=
  (mapCacheIdToCacheKey cacheId claims).bind fun ck =>
    if (lookupByCacheKey files ck).isSome then none
    else
      files.find? fun mf =>
        !(mf.original_filename == "") &&
        (pyIn ck mf.original_filename || pyStartsWith mf.original_filename ck)

/-- Spec strategy 4: the raw token as a substring of filenames or keys. -/
def strategyTokenSubstring (cacheId : String) (files : List MediaFile) : Option MediaFile :=
  files.find? fun mf =>
    pyIn cacheId mf.original_filename || pyIn cacheId mf.cache_key

/-- Spec strategy 5: case-insensitive bidirectional substring on keys. -/
def strategyCaseInsensitive (cacheId : String) (files : List MediaFile) : Option MediaFile :=
  files.find? fun mf =>
    !(cacheId == "") && !(mf.cache_key == "") &&
    (pyIn (pyLower cacheId) (pyLower mf.cache_key) ||
     pyIn (pyLower mf.cache_key) (pyLower cacheId))

/-- Media file whose correlation key is exactly `"abc"`. -/
def exactKeyFile : MediaFile := ⟨"abc", "photo.jpg", "scanner", none⟩

/-- Media file whose filename merely contains `"abc"` as a substring. -/
def substringFile : MediaFile := ⟨"zzz", "xx_abc_yy.mp4", "scanner", none⟩

/-- C2: the matching chain equals the ordered first-match fallback over the
five strategies, and on token `"abc"` the exact-key file wins over the
filename-substring file. -/
theorem link_strategy_order :
    (∀ (cacheId : String) (files : List MediaFile) (claims : List (String × String)),
      findMediaAsset cacheId files claims =
        firstSome [strategyDirectKey cacheId files,
                   strategyMappedKey cacheId files claims,
                   strategyMappedKeyInFilename cacheId files claims,
                   strategyTokenSubstring cacheId files,
                   strategyCaseInsensitive cacheId files]) ∧
    findMediaAsset "abc" [exactKeyFile, substringFile] [] = some exactKeyFile := by
  constructor
  · intro cacheId files claims
    simp only [findMediaAsset, firstSome, strategyDirectKey, strategyMappedKey,
      strategyMappedKeyInFilename, strategyTokenSubstring, strategyCaseInsensitive]
    cases lookupByCacheKey files cacheId with
    | some a => rfl
    | none =>
        cases mapCacheIdToCacheKey cacheId claims with
        | none =>
            cases files.find? fun mf =>
                pyIn cacheId mf.original_filename || pyIn cacheId mf.cache_key with
            | some a => rfl
            | none =>
                cases files.find? fun mf =>
                    !(cacheId == "") && !(mf.cache_key == "") &&
                    (pyIn (pyLower cacheId) (pyLower mf.cache_key) ||
                     pyIn (pyLower mf.cache_key) (pyLower cacheId)) with
                | some a => rfl
                | none => rfl
        | some ck =>
            cases hck : lookupByCacheKey files ck with
            | some a => simp only [Option.some_bind, hck, firstSome]
            | none =>
                simp only [Option.some_bind, hck, Option.isSome_none,
                  Bool.false_eq_true, if_false]
                cases files.find? fun mf =>
                    !(mf.original_filename == "") &&
                    (pyIn ck mf.original_filename || pyStartsWith mf.original_filename ck) with
                | some a => rfl
                | none =>
                    cases files.find? fun mf =>
                        pyIn cacheId mf.original_filename || pyIn cacheId mf.cache_key with
                    | some a => rfl
                    | none =>
                        cases files.find? fun mf =>
                            !(cacheId == "") && !(mf.cache_key == "") &&
                            (pyIn (pyLower cacheId) (pyLower mf.cache_key) ||
                             pyIn (pyLower mf.cache_key) (pyLower cacheId)) with
                        | some a => rfl
                        | none => rfl
  · decide

/-- A parsed message row as handed to `link_media_to_messages`. -/
structure ParsedMessage where
  sender_id : String
  cache_id : Option String
  creation_timestamp_ms : Int
deriving DecidableEq, Repr

/-- A unified message: the message data plus its linked media asset. -/
structure UnifiedMessage where
  msg : ParsedMessage
  media_asset : Option MediaFile
deriving DecidableEq, Repr

/-- Body of the per-message loop in `link_media_to_messages`: a truthy
`cache_id` triggers the matching chain; on a match the media file's owner and
cache id are overwritten from the message. -/
def linkOneMessage (files : List MediaFile) (claims : List (String × String))
    (msg : ParsedMessage) : UnifiedMessage :=
  match msg.cache_id with
  | some cid =>
      if cid ≠ "" then
        match findMediaAsset cid files claims with
        | some a => ⟨msg, some { a with sender_id := msg.sender_id, cache_id := some cid }⟩
        | none => ⟨msg, none⟩
      else ⟨msg, none⟩
  | none => ⟨msg, none⟩

/-- Sort key of the final `unified_messages.sort`. -/
def byTimestamp (a b : UnifiedMessage) : Prop :=
  a.msg.creation_timestamp_ms ≤ b.msg.creation_timestamp_ms

instance : DecidableRel byTimestamp := fun a b =>
  inferInstanceAs (Decidable (a.msg.creation_timestamp_ms ≤ b.msg.creation_timestamp_ms))

/-- `DataLinker.link_media_to_messages`: link each message, then stable-sort
the unified messages by creation timestamp. -/
def linkMediaToMessages (messages : List ParsedMessage) (files : List MediaFile)
    (claims : List (String × String)) : List UnifiedMessage :=
  List.insertionSort byTimestamp (messages.map (linkOneMessage files claims))

/-- Step 4 of `IngestionService.run_ingestion` (lines 162-166): the media
assets passed on for persistence are exactly the `media_asset` fields of the
unified messages. -/
def mediaAssetsExtracted (unified : List UnifiedMessage) : List MediaFile :=
  unified.filterMap (·.media_asset)

/-- A discovered media file that no message references. -/
def sampleUnlinkedFile : MediaFile := ⟨"abc", "abc_notes.jpg", "scanner", none⟩

/-- A message whose token matches no media file. -/
def sampleNoMatchMsg : ParsedMessage := ⟨"alice", some "zzz", 5⟩

/-- C4 counterexample: a media file matching no message is absent from the
media assets handed to persistence — it is dropped, not retained as a
standalone asset. -/
theorem unlinked_media_dropped_counterexample :
    mediaAssetsExtracted (linkMediaToMessages [sampleNoMatchMsg] [sampleUnlinkedFile] []) = [] ∧
    findMediaAsset "zzz" [sampleUnlinkedFile] [] = none ∧
    [sampleUnlinkedFile] ≠ ([] : List MediaFile) := by
  decide

/-- C4 amended: every media asset handed to persistence comes from a message
that linked to it; unlinked media files are dropped by the pipeline. -/
theorem media_assets_only_from_linked
    (messages : List ParsedMessage) (files : List MediaFile)
    (claims : List (String × String)) (a : MediaFile)
    (ha : a ∈ mediaAssetsExtracted (linkMediaToMessages messages files claims)) :
    ∃ msg ∈ messages, ∃ cid, msg.cache_id = some cid ∧ cid ≠ "" ∧
      ∃ b, findMediaAsset cid files claims = some b ∧
        a = { b with sender_id := msg.sender_id, cache_id := some cid } := by
  unfold mediaAssetsExtracted linkMediaToMessages at ha
  rw [List.mem_filterMap] at ha
  obtain ⟨u, hu, hua⟩ := ha
  rw [(List.perm_insertionSort byTimestamp _).mem_iff] at hu
  rw [List.mem_map] at hu
  obtain ⟨msg, hmsg, rfl⟩ := hu
  refine ⟨msg, hmsg, ?_⟩
  cases hc : msg.cache_id with
  | none => simp [linkOneMessage, hc] at hua
  | some cid =>
      by_cases hcne : cid = ""
      · simp [linkOneMessage, hc, hcne] at hua
      · cases hf : findMediaAsset cid files claims with
        | none => simp [linkOneMessage, hc, hcne, hf] at hua
        | some b =>
            refine ⟨cid, rfl, hcne, b, hf, ?_⟩
            have h2 : ({ b with sender_id := msg.sender_id, cache_id := some cid } : MediaFile) = a := by
              simpa [linkOneMessage, hc, hcne, hf] using hua
            exact h2.symm

/-- A message whose token `"abc"` matches `exactKeyFile` directly. -/
def sampleLinkedMsg : ParsedMessage := ⟨"alice", some "abc", 7⟩

/-- The linked asset produced for `sampleLinkedMsg`. -/
def linkedAbcAsset : MediaFile := ⟨"abc", "photo.jpg", "alice", some "abc"⟩

theorem media_assets_only_from_linked_witness :
    ∃ msg ∈ [sampleLinkedMsg], ∃ cid, msg.cache_id = some cid ∧ cid ≠ "" ∧
      ∃ b, findMediaAsset cid [exactKeyFile] [] = some b ∧
        linkedAbcAsset = { b with sender_id := msg.sender_id, cache_id := some cid } :=
  media_assets_only_from_linked [sampleLinkedMsg] [exactKeyFile] [] linkedAbcAsset (by decide)

/-! ## Remote media discovery (`services/media_discovery.py`) -/

/-- Value of Python `xs.split(sep)[0]`: the characters before the first
occurrence of `sep`. -/
def beforeFirst (sep : Char) : List Char → List Char
  | [] => []
  | c :: cs => if c = sep then [] else c :: beforeFirst sep cs

/-- `MediaDiscoveryService._extract_cache_key`: the first underscore-delimited
segment, else the part before the first dot, else the whole filename. -/
def extractCacheKey (filename : String) : String :=
  if '_' ∈ filename.data then ⟨beforeFirst '_' filename.data⟩
  else if '.' ∈ filename.data then ⟨beforeFirst '.' filename.data⟩
  else filename

/-- Characters after the first occurrence of `sep` (empty when absent). -/
def afterFirst (sep : Char) : List Char → List Char
  | [] => []
  | c :: cs => if c = sep then cs else afterFirst sep cs

/-- The claim's notion of the filename stem: the filename with its extension
(the part from the last dot on) removed. -/
def filenameStem (filename : String) : String :=
  if '.' ∈ filename.data then ⟨(afterFirst '.' filename.data.reverse).reverse⟩
  else filename

/-- C9 counterexample: for `"a.b.c"` (no underscore, two dots) the code
derives `"a"`, while the filename stem is `"a.b"`. -/
theorem extract_cache_key_stem_counterexample :
    extractCacheKey "a.b.c" = "a" ∧ filenameStem "a.b.c" = "a.b" ∧
    ('_' ∈ "a.b.c".data) = False ∧ extractCacheKey "a.b.c" ≠ filenameStem "a.b.c" := by
  refine ⟨by decide, by decide, by simp, by decide⟩

theorem beforeFirst_eq_takeWhile (sep : Char) :
    ∀ l : List Char, beforeFirst sep l = l.takeWhile fun c => !(c == sep) := by
  intro l
  induction l with
  | nil => rfl
  | cons c cs ih =>
      simp only [beforeFirst, List.takeWhile_cons]
      by_cases hc : c = sep
      · simp [hc]
      · simp [hc, ih]

/-- C9 amended: the derived key is the first underscore-delimited segment
when an underscore is present, else the part of the filename before the
first dot, else the whole filename. -/
theorem extract_cache_key_first_segment (filename : String) :
    ('_' ∈ filename.data →
        extractCacheKey filename = ⟨filename.data.takeWhile fun c => !(c == '_')⟩) ∧
    ('_' ∉ filename.data → '.' ∈ filename.data →
        extractCacheKey filename = ⟨filename.data.takeWhile fun c => !(c == '.')⟩) ∧
    ('_' ∉ filename.data → '.' ∉ filename.data → extractCacheKey filename = filename) := by
  refine ⟨?_, ?_, ?_⟩
  · intro h
    rw [extractCacheKey, if_pos h, beforeFirst_eq_takeWhile]
  · intro h1 h2
    rw [extractCacheKey, if_neg h1, if_pos h2, beforeFirst_eq_takeWhile]
  · intro h1 h2
    rw [extractCacheKey, if_neg h1, if_neg h2]

theorem extract_cache_key_first_segment_witness :
    extractCacheKey "ab_cd.e" = "ab" ∧ extractCacheKey "ab.cd.e" = "ab" ∧
    extractCacheKey "abc" = "abc" := by
  refine ⟨?_, ?_, ?_⟩
  · exact ((extract_cache_key_first_segment "ab_cd.e").1 (by decide)).trans (by decide)
  · exact ((extract_cache_key_first_segment "ab.cd.e").2.1 (by decide) (by decide)).trans
      (by decide)
  · exact (extract_cache_key_first_segment "abc").2.2 (by decide) (by decide)

/-- One discovered remote media file (`file_info` of `discover_remote_media_files`). -/
structure DiscoveredFile where
  filename : String
  cache_key : String
deriving DecidableEq, Repr

/-- Python dict assignment `m[k] = v`: rebind `k` if present, else append. -/
def assocSet (m : List (String × String)) (k v : String) : List (String × String) :=
  if m.any fun p => p.1 == k then
    m.map fun p => if p.1 == k then (k, v) else p
  else m ++ [(k, v)]

/-- Python `m.get(k)`. -/
def assocGet (m : List (String × String)) (k : String) : Option String :=
  (m.find? fun p => p.1 == k).map Prod.snd

/-- The `cache_id_to_key` map of `determine_needed_media_files`: for each
cache mapping in order, the first message cache id contained in its non-empty
external key is (re)bound to that mapping's cache key. -/
def buildCacheIdToKey (claims : List (String × String)) (msgIds : List String) :
    List (String × String) :=
  claims.foldl
    (fun m ck =>
      match msgIds.find? (fun cid => !(ck.2 == "") && pyIn cid ck.2) with
      | some cid => assocSet m cid ck.1
      | none => m)
    []

/-- The three reference checks of `determine_needed_media_files`: cache key
among mapped values, some message id mapping to it, or bidirectional
substring overlap with some message id. -/
def isReferenced (cacheKey : String) (idToKey : List (String × String))
    (msgIds : List String) : Bool :=
  (idToKey.any fun p => p.2 == cacheKey) ||
  (msgIds.any fun cid => assocGet idToKey cid == some cacheKey) ||
  (msgIds.any fun cid =>
    !(cid == "") && !(cacheKey == "") && (pyIn cid cacheKey || pyIn cacheKey cid))

/-- `MediaDiscoveryService.determine_needed_media_files` for one discovered
directory: keep the files neither present by filename nor by cache key that
some message references. -/
def determineNeededMediaFiles (files : List DiscoveredFile)
    (existing : List String) (claims : List (String × String))
    (msgIds : List String) : List DiscoveredFile :=
  let idToKey := buildCacheIdToKey claims msgIds
  files.filter fun f =>
    !(existing.contains f.filename) && !(existing.contains f.cache_key) &&
    isReferenced f.cache_key idToKey msgIds

/-- Two-digit decimal rendering used to build the 100-file example. -/
def twoDigit (i : Nat) : String :=
  ⟨[Char.ofNat (48 + i / 10), Char.ofNat (48 + i % 10)]⟩

/-- 100 discovered files `a00_x.jpg` … `a99_x.jpg` with keys `a00` … `a99`. -/
def discovered100 : List DiscoveredFile :=
  (List.range 100).map fun i => ⟨"a" ++ twoDigit i ++ "_x.jpg", "a" ++ twoDigit i⟩

/-- C6: the transfer set contains exactly the discovered files that are not
already present (by filename or cache key) and whose cache key is referenced
by some message; with 100 discovered files, 3 referenced keys and nothing
stored, exactly those 3 files are selected. -/
theorem determine_needed_exactly_referenced_not_present :
    (∀ (files : List DiscoveredFile) (existing : List String)
       (claims : List (String × String)) (msgIds : List String) (f : DiscoveredFile),
      f ∈ determineNeededMediaFiles files existing claims msgIds ↔
        f ∈ files ∧ f.filename ∉ existing ∧ f.cache_key ∉ existing ∧
          isReferenced f.cache_key (buildCacheIdToKey claims msgIds) msgIds = true) ∧
    determineNeededMediaFiles discovered100 [] [] ["a01", "a02", "a03"] =
      [⟨"a01_x.jpg", "a01"⟩, ⟨"a02_x.jpg", "a02"⟩, ⟨"a03_x.jpg", "a03"⟩] := by
  constructor
  · intro files existing claims msgIds f
    simp [determineNeededMediaFiles, List.mem_filter, List.elem_iff, and_assoc]
  · decide

/-! ## Binary message decoder (`parsers/_protobuf_parser.py`) -/

/-- `Content.chat.mediatext.mediatext2`: optional cache id and final text. -/
structure Mediatext2 where
  cacheId : Option String
  mediatextFinal : Option String
deriving DecidableEq, Repr

/-- `Content.chat.mediatext`. -/
structure Mediatext where
  mediatext2 : Option Mediatext2
deriving DecidableEq, Repr

/-- `Content.chat.chatMessage`. -/
structure ChatMessage where
  message : Option String
deriving DecidableEq, Repr

/-- `Content.chat`. -/
structure Chat where
  chatMessage : Option ChatMessage
  mediatext : Option Mediatext
deriving DecidableEq, Repr

/-- `Content.startMedia.unknown.unknown.unknown`. -/
structure Unknown3 where
  cacheId : Option String
deriving DecidableEq, Repr

/-- `Content.startMedia.unknown.unknown`: nested level with its own cache id. -/
structure Unknown2 where
  unknown : Option Unknown3
  cacheId : Option String
deriving DecidableEq, Repr

/-- `Content.startMedia.unknown`. -/
structure Unknown1 where
  unknown : Option Unknown2
deriving DecidableEq, Repr

/-- `Content.startMedia`. -/
structure StartMedia where
  unknown : Option Unknown1
deriving DecidableEq, Repr

/-- `Content` of the decoded schema. -/
structure Content where
  startMedia : Option StartMedia
  chat : Option Chat
deriving DecidableEq, Repr

/-- The decoded protobuf schema; `hasattr` probes become `Option` fields. -/
structure Schema where
  content : Option Content
deriving DecidableEq, Repr

/-- Deep cache id path `Content.startMedia.unknown.unknown.unknown.cacheId`. -/
def cachePathDeep (s : Schema) : Option String := do
  let c ← s.content
  let sm ← c.startMedia
  let u1 ← sm.unknown
  let u2 ← u1.unknown
  let u3 ← u2.unknown
  u3.cacheId

/-- Shallow cache id path `Content.startMedia.unknown.unknown.cacheId`. -/
def cachePathShallow (s : Schema) : Option String := do
  let c ← s.content
  let sm ← c.startMedia
  let u1 ← sm.unknown
  let u2 ← u1.unknown
  u2.cacheId

/-- Chat text path `Content.chat.chatMessage.message`. -/
def chatMessagePath (s : Schema) : Option String := do
  let c ← s.content
  let ch ← c.chat
  let cm ← ch.chatMessage
  cm.message

/-- Mixed-message cache id path `Content.chat.mediatext.mediatext2.cacheId`. -/
def mediatextCacheIdPath (s : Schema) : Option String := do
  let c ← s.content
  let ch ← c.chat
  let mt ← ch.mediatext
  let mt2 ← mt.mediatext2
  mt2.cacheId

/-- Caption path `Content.chat.mediatext.mediatext2.mediatextFinal`. -/
def mediatextFinalPath (s : Schema) : Option String := do
  let c ← s.content
  let ch ← c.chat
  let mt ← ch.mediatext
  let mt2 ← mt.mediatext2
  mt2.mediatextFinal

/-- Python `str.strip()` whitespace test. -/
def isPyWhitespace (c : Char) : Bool :=
  c == ' ' || c == '\t' || c == '\n' || c == Char.ofNat 13 ||
  c == Char.ofNat 11 || c == Char.ofNat 12

/-- Python `s.strip()`. -/
def pyStrip (s : String) : String :=
  ⟨((s.data.dropWhile isPyWhitespace).reverse.dropWhile isPyWhitespace).reverse⟩

/-- `message_text.replace('\x00', '').strip()`. -/
def cleanText (s : String) : String :=
  pyStrip ⟨s.data.filter fun c => !(c == Char.ofNat 0)⟩

/-- `ProtobufParser._extract_cache_id_from_start_media`. -/
def extractCacheIdFromStartMedia (schema : Schema) : String × Option String :=
  match cachePathDeep schema with
  | some cid => (cid, none)
  | none =>
      match cachePathShallow schema with
      | some cid => (cid, none)
      | none => ("INFO - No cacheId found in expected structure", none)

/-- `ProtobufParser._extract_chat_message`. -/
def extractChatMessage (schema : Schema) : String × Option String :=
  match chatMessagePath schema with
  | some messageText =>
      if messageText ≠ "" then
        if cleanText messageText ≠ "" then (cleanText messageText, none)
        else ("INFO - Empty message found in chat structure", none)
      else ("INFO - Empty message found in chat structure", none)
  | none => ("INFO - No message found in expected chat structure", none)

/-- `ProtobufParser._extract_media_data`. -/
def extractMediaData (schema : Schema) : String × Option String :=
  let cacheId : Option String :=
    match cachePathDeep schema with
    | some c => some c
    | none =>
        match cachePathShallow schema with
        | some c => some c
        | none => mediatextCacheIdPath schema
  let mediaText : Option String :=
    match mediatextFinalPath schema with
    | some t => some (if t ≠ "" then cleanText t else t)
    | none => none
  if cacheId = none ∧ mediaText = none then
    ("INFO - No media data found in expected structure", none)
  else
    ((match cacheId with
      | some c => if c ≠ "" then c else "No cacheId"
      | none => "No cacheId"),
     (match mediaText with
      | some t => if t ≠ "" then some t else none
      | none => none))

/-- `ProtobufParser._extract_audio_cache_id`. -/
def extractAudioCacheId (schema : Schema) : String × Option String :=
  match cachePathDeep schema with
  | some cid => (cid, none)
  | none =>
      match cachePathShallow schema with
      | some cid => (cid, none)
      | none =>
          match mediatextCacheIdPath schema with
          | some cid => (cid, none)
          | none => ("INFO - No cacheId found in expected structure for audio", none)

/-- `ProtobufParser.validate_protobuf_data`: non-empty, at least two bytes,
low three bits of the first byte encode a wire type at most 5. -/
def validateProtobufData : List Nat → Bool
  | [] => false
  | [_] => false
  | b :: _ :: _ => decide (b % 8 ≤ 5)

/-- `ProtobufParser.parse_schema`, with the already-decoded schema standing
for `ParseFromString(data)`: dispatch on the recognized content kinds. -/
def parseSchemaChecked (data : List Nat) (schema : Schema) (kind : Int) :
    String × Option String :=
  if !(validateProtobufData data) then
    ("INFO - Invalid or empty protobuf data for content_type " ++ toString kind, none)
  else if kind = 0 then extractCacheIdFromStartMedia schema
  else if kind = 1 then extractChatMessage schema
  else if kind = 2 then extractMediaData schema
  else if kind = 4 then extractAudioCacheId schema
  else ("ERROR - Unknown content_type: " ++ toString kind, none)

/-- The failure test of `parse_message`: the first schema result contains
`'ERROR'` or `'INFO'` as a substring. -/
def isMarker (s : String) : Bool := pyIn "ERROR" s || pyIn "INFO" s

/-- `ProtobufParser.parse_message`: the `(text, cacheId, ok)` triple. -/
def parseMessage (data : List Nat) (schema : Schema) (kind : Int) :
    Option String × Option String × Bool :=
  if !(validateProtobufData data) then (none, none, false)
  else
    let r := parseSchemaChecked data schema kind
    if !(isMarker r.1) then
      ((if kind = 1 then some r.1 else if kind = 2 then r.2 else none),
       (if kind = 0 ∨ kind = 2 ∨ kind = 4 then some r.1 else none),
       true)
    else (none, none, false)

/-- C8: decoding an empty payload returns `ok=false` with both optional
fields empty, for every schema and kind (in particular kind 1). -/
theorem parse_message_empty_payload (schema : Schema) (kind : Int) :
    parseMessage [] schema kind = (none, none, false) := rfl

/-- An empty decoded schema: every navigation probe fails. -/
def emptySchema : Schema := ⟨none⟩

/-- C3 counterexample: `[10, 0]` validates and kind 1 is recognized, yet with
an empty schema (navigation completes, no value found) the decoder returns
`ok=false` — not `ok=true` as the claim requires. -/
theorem parse_ok_requires_found_counterexample :
    validateProtobufData [10, 0] = true ∧
    ((1 : Int) = 0 ∨ (1 : Int) = 1 ∨ (1 : Int) = 2 ∨ (1 : Int) = 4) ∧
    parseMessage [10, 0] emptySchema 1 = (none, none, false) := by
  refine ⟨by decide, by decide, by decide⟩

theorem isMarker_error_unknown (kind : Int) :
    isMarker ("ERROR - Unknown content_type: " ++ toString kind) = true := by
  have h : "ERROR".data <+: ("ERROR - Unknown content_type: " ++ toString kind).data := by
    refine ⟨" - Unknown content_type: ".data ++ (toString kind).data, ?_⟩
    rw [String.data_append, ← List.append_assoc]
    congr 1
  have h2 : pyIn "ERROR" ("ERROR - Unknown content_type: " ++ toString kind) = true := by
    unfold pyIn
    exact decide_eq_true h.isInfix
  simp [isMarker, h2]

theorem parseSchemaChecked_unknown (data : List Nat) (schema : Schema) (kind : Int)
    (hv : validateProtobufData data = true)
    (h0 : kind ≠ 0) (h1 : kind ≠ 1) (h2 : kind ≠ 2) (h4 : kind ≠ 4) :
    parseSchemaChecked data schema kind =
      ("ERROR - Unknown content_type: " ++ toString kind, none) := by
  simp [parseSchemaChecked, hv, h0, h1, h2, h4]

/-- C3 amended: the decode result has `ok=true` iff the payload validates,
the kind is recognized, and the extraction step reported a found value rather
than an `INFO`/`ERROR` marker — so a recognized kind whose expected
sub-fields are absent, or whose text is empty after stripping, yields
`ok=false`, not `ok=true`. -/
theorem parse_message_ok_iff (data : List Nat) (schema : Schema) (kind : Int) :
    (parseMessage data schema kind).2.2 = true ↔
      (validateProtobufData data = true ∧
       (kind = 0 ∨ kind = 1 ∨ kind = 2 ∨ kind = 4) ∧
       isMarker (parseSchemaChecked data schema kind).1 = false) := by
  by_cases hv : validateProtobufData data
  · by_cases hm : isMarker (parseSchemaChecked data schema kind).1
    · simp [parseMessage, hv, hm]
    · rw [Bool.not_eq_true] at hm
      have hk : kind = 0 ∨ kind = 1 ∨ kind = 2 ∨ kind = 4 := by
        by_contra hkc
        push_neg at hkc
        obtain ⟨h0, h1, h2, h4⟩ := hkc
        rw [parseSchemaChecked_unknown data schema kind hv h0 h1 h2 h4] at hm
        rw [isMarker_error_unknown kind] at hm
        exact absurd hm (by simp)
      simp [parseMessage, hv, hm, hk]
  · rw [Bool.not_eq_true] at hv
    simp [parseMessage, hv]

/-! ## Orphan reconciliation (`IngestionService._link_orphaned_messages_and_media`) -/

/-- A persisted message row as seen by the reconciliation pass. -/
structure StoredMessage where
  id : Nat
  cache_id : Option String
  media_asset_id : Option Nat
  text : Option String
deriving DecidableEq, Repr

/-- A persisted media asset row. -/
structure StoredAsset where
  id : Nat
  cache_id : Option String
deriving DecidableEq, Repr

/-- The `notin_` subquery: some message already links cache id `t`
(cache id set and media asset id set). -/
def someMessageLinks (msgs : List StoredMessage) (t : String) : Bool :=
  msgs.any fun m => m.cache_id == some t && m.media_asset_id.isSome

/-- An orphaned media asset: non-null, non-empty cache id that no linked
message carries. -/
def isOrphanAsset (msgs : List StoredMessage) (a : StoredAsset) : Bool :=
  match a.cache_id with
  | some t => !(t == "") && !(someMessageLinks msgs t)
  | none => false

/-- The `media_lookup` dict: cache id of each orphaned asset mapped to the
asset id; a later orphaned asset with the same cache id overwrites. -/
def lookupOrphanAsset (msgs : List StoredMessage) (assets : List StoredAsset)
    (t : String) : Option Nat :=
  (assets.filter (isOrphanAsset msgs)).foldl
    (fun acc a => if a.cache_id == some t then some a.id else acc) none

/-- Per-message step of the linking loop: an orphaned message (non-empty
cache id, no linked asset) whose cache id is in the lookup receives that
asset id; every other message is untouched. -/
def linkStep (msgs : List StoredMessage) (assets : List StoredAsset)
    (m : StoredMessage) : StoredMessage :=
  match m.cache_id with
  | some t =>
      if t ≠ "" ∧ m.media_asset_id = none then
        match lookupOrphanAsset msgs assets t with
        | some aid => { m with media_asset_id := some aid }
        | none => m
      else m
  | none => m

/-- `_link_orphaned_messages_and_media` applied to the message table. -/
def reconcileOrphans (msgs : List StoredMessage) (assets : List StoredAsset) :
    List StoredMessage :=
  msgs.map (linkStep msgs assets)

theorem foldl_lastSet (t : String) :
    ∀ (l : List StoredAsset) (acc : Option Nat),
      l.foldl (fun acc a => if a.cache_id == some t then some a.id else acc) acc =
        (match l.reverse.find? (fun a => a.cache_id == some t) with
         | some a => some a.id
         | none => acc) := by
  intro l
  induction l with
  | nil => intro acc; rfl
  | cons x xs ih =>
      intro acc
      rw [List.foldl_cons, ih, List.reverse_cons, List.find?_append]
      cases hf : xs.reverse.find? fun a => a.cache_id == some t with
      | some a => rfl
      | none =>
          simp only [Option.none_orElse]
          by_cases hx : x.cache_id == some t
          · simp [List.find?, hx]
          · simp [List.find?, hx]

theorem lookupOrphanAsset_eq_none_iff (msgs : List StoredMessage)
    (assets : List StoredAsset) (t : String) :
    lookupOrphanAsset msgs assets t = none ↔
      ∀ a ∈ assets, isOrphanAsset msgs a = true → a.cache_id ≠ some t := by
  unfold lookupOrphanAsset
  rw [foldl_lastSet]
  cases hf : (assets.filter (isOrphanAsset msgs)).reverse.find?
      (fun a => a.cache_id == some t) with
  | some a =>
      simp only [reduceCtorEq, false_iff]
      push_neg
      refine ⟨a, ?_, ?_, ?_⟩
      · have := List.mem_of_find?_eq_some hf
        rw [List.mem_reverse, List.mem_filter] at this
        exact this.1
      · have := List.mem_of_find?_eq_some hf
        rw [List.mem_reverse, List.mem_filter] at this
        exact this.2
      · have := List.find?_some hf
        simpa using this
  | none =>
      simp only [true_iff]
      intro a ha ho hc
      rw [List.find?_eq_none] at hf
      have := hf a (by rw [List.mem_reverse, List.mem_filter]; exact ⟨ha, ho⟩)
      simp [hc] at this

theorem lookupOrphanAsset_unique (msgs : List StoredMessage)
    (assets : List StoredAsset) (a : StoredAsset) (t : String)
    (ha : a ∈ assets) (hca : a.cache_id = some t) (ho : isOrphanAsset msgs a = true)
    (huniq : ∀ a' ∈ assets, a'.cache_id = some t → a' = a) :
    lookupOrphanAsset msgs assets t = some a.id := by
  unfold lookupOrphanAsset
  rw [foldl_lastSet]
  cases hf : (assets.filter (isOrphanAsset msgs)).reverse.find?
      (fun a => a.cache_id == some t) with
  | some x =>
      have hx := List.mem_of_find?_eq_some hf
      rw [List.mem_reverse, List.mem_filter] at hx
      have hxt : x.cache_id = some t := by simpa using List.find?_some hf
      rw [huniq x hx.1 hxt]
  | none =>
      rw [List.find?_eq_none] at hf
      have := hf a (by rw [List.mem_reverse, List.mem_filter]; exact ⟨ha, ho⟩)
      simp [hca] at this

theorem linkStep_of_linked (msgs : List StoredMessage) (assets : List StoredAsset)
    (m : StoredMessage) (h : m.media_asset_id.isSome) :
    linkStep msgs assets m = m := by
  unfold linkStep
  cases hc : m.cache_id with
  | none => rfl
  | some t =>
      exact if_neg (by rintro ⟨-, h2⟩; rw [h2] at h; simp at h)

theorem someMessageLinks_mono (msgs : List StoredMessage) (assets : List StoredAsset)
    (t : String) (h : someMessageLinks msgs t = true) :
    someMessageLinks (reconcileOrphans msgs assets) t = true := by
  rw [someMessageLinks, List.any_eq_true] at h ⊢
  obtain ⟨m, hm, hcond⟩ := h
  refine ⟨m, ?_, hcond⟩
  have hms : linkStep msgs assets m = m :=
    linkStep_of_linked msgs assets m (by
      have := hcond
      rw [Bool.and_eq_true] at this
      exact this.2)
  rw [reconcileOrphans]
  exact hms ▸ List.mem_map_of_mem (linkStep msgs assets) hm

theorem isOrphanAsset_mono (msgs : List StoredMessage) (assets : List StoredAsset)
    (a : StoredAsset) (h : isOrphanAsset (reconcileOrphans msgs assets) a = true) :
    isOrphanAsset msgs a = true := by
  rw [isOrphanAsset] at h ⊢
  cases hc : a.cache_id with
  | none => rw [hc] at h; exact absurd h (by simp)
  | some t =>
      rw [hc] at h
      rw [Bool.and_eq_true, Bool.not_eq_true', Bool.not_eq_true'] at h ⊢
      refine ⟨h.1, ?_⟩
      by_contra hlink
      rw [Bool.not_eq_false] at hlink
      have := someMessageLinks_mono msgs assets t hlink
      rw [h.2] at this
      exact absurd this (by simp)

theorem lookupOrphanAsset_none_mono (msgs : List StoredMessage)
    (assets : List StoredAsset) (t : String)
    (h : lookupOrphanAsset msgs assets t = none) :
    lookupOrphanAsset (reconcileOrphans msgs assets) assets t = none := by
  rw [lookupOrphanAsset_eq_none_iff] at h ⊢
  intro a ha ho
  exact h a ha (isOrphanAsset_mono msgs assets a ho)

theorem linkStep_idem (msgs : List StoredMessage) (assets : List StoredAsset)
    (m : StoredMessage) :
    linkStep (reconcileOrphans msgs assets) assets (linkStep msgs assets m) =
      linkStep msgs assets m := by
  cases hc : m.cache_id with
  | none =>
      have h1 : linkStep msgs assets m = m := by simp [linkStep, hc]
      rw [h1]
      simp [linkStep, hc]
  | some t =>
      by_cases hcond : t ≠ "" ∧ m.media_asset_id = none
      · cases hl : lookupOrphanAsset msgs assets t with
        | some aid =>
            have h1 : linkStep msgs assets m = { m with media_asset_id := some aid } := by
              simp [linkStep, hc, hcond, hl]
            rw [h1]
            exact linkStep_of_linked _ assets _ (by simp)
        | none =>
            have h1 : linkStep msgs assets m = m := by simp [linkStep, hc, hcond, hl]
            rw [h1]
            have h2 := lookupOrphanAsset_none_mono msgs assets t hl
            simp [linkStep, hc, hcond, h2]
      · have h1 : linkStep msgs assets m = m := by simp [linkStep, hc, hcond]
        rw [h1]
        simp [linkStep, hc, hcond]

theorem reconcileOrphans_idem (msgs : List StoredMessage) (assets : List StoredAsset) :
    reconcileOrphans (reconcileOrphans msgs assets) assets =
      reconcileOrphans msgs assets := by
  conv_lhs => rw [reconcileOrphans]
  conv_rhs => rw [reconcileOrphans]
  rw [reconcileOrphans, List.map_map]
  apply List.map_congr_left
  intro m _
  exact linkStep_idem msgs assets m

/-- C7: an orphaned message (non-empty token, no linked asset) whose token is
carried by exactly one persisted asset, itself orphaned, gets linked to that
asset by exact token equality; every message keeps its id, cache id and text;
already-linked messages are untouched entirely; and running the pass a second
time changes nothing (idempotence). -/
theorem reconcile_orphans_links_and_idempotent
    (msgs : List StoredMessage) (assets : List StoredAsset)
    (m : StoredMessage) (a : StoredAsset) (t : String) :
    (m.cache_id = some t → t ≠ "" → m.media_asset_id = none →
      a ∈ assets → a.cache_id = some t → isOrphanAsset msgs a = true →
      (∀ a' ∈ assets, a'.cache_id = some t → a' = a) →
      linkStep msgs assets m = { m with media_asset_id := some a.id }) ∧
    (∀ m' : StoredMessage,
      (linkStep msgs assets m').id = m'.id ∧
      (linkStep msgs assets m').cache_id = m'.cache_id ∧
      (linkStep msgs assets m').text = m'.text) ∧
    (∀ m' : StoredMessage, m'.media_asset_id.isSome = true →
      linkStep msgs assets m' = m') ∧
    (m ∈ msgs → linkStep msgs assets m ∈ reconcileOrphans msgs assets) ∧
    reconcileOrphans (reconcileOrphans msgs assets) assets =
      reconcileOrphans msgs assets := by
  refine ⟨?_, ?_, ?_, ?_, ?_⟩
  · intro hc hne hmaid ha hca ho huniq
    have hl := lookupOrphanAsset_unique msgs assets a t ha hca ho huniq
    simp [linkStep, hc, hne, hmaid, hl]
  · intro m'
    unfold linkStep
    cases hc : m'.cache_id with
    | none => exact ⟨rfl, hc, rfl⟩
    | some t' =>
        by_cases hcond : t' ≠ "" ∧ m'.media_asset_id = none
        · cases hl : lookupOrphanAsset msgs assets t' with
          | some aid => simp [hcond, hl, hc]
          | none => simp [hcond, hl, hc]
        · simp [hcond, hc]
  · intro m' h
    exact linkStep_of_linked msgs assets m' h
  · intro hm
    exact List.mem_map_of_mem (linkStep msgs assets) hm
  · exact reconcileOrphans_idem msgs assets

/-- Orphaned message with token `"t1"` used by the C7 witness. -/
def orphanMsg : StoredMessage := ⟨1, some "t1", none, some "hi"⟩

/-- Unrelated, already-linked message used by the C7 witness. -/
def otherMsg : StoredMessage := ⟨2, some "t2", some 5, some "yo"⟩

/-- Orphaned asset with token `"t1"` used by the C7 witness. -/
def orphanAsset : StoredAsset := ⟨10, some "t1"⟩

theorem reconcile_orphans_links_and_idempotent_witness :
    linkStep [orphanMsg, otherMsg] [orphanAsset] orphanMsg =
      { orphanMsg with media_asset_id := some orphanAsset.id } ∧
    reconcileOrphans (reconcileOrphans [orphanMsg, otherMsg] [orphanAsset]) [orphanAsset] =
      reconcileOrphans [orphanMsg, otherMsg] [orphanAsset] := by
  have h := reconcile_orphans_links_and_idempotent [orphanMsg, otherMsg] [orphanAsset]
      orphanMsg orphanAsset "t1"
  exact ⟨h.1 (by decide) (by decide) (by decide) (by decide) (by decide) (by decide)
      (by decide), h.2.2.2.2⟩

/-! ## Run-start guards (`api/ingest.py`, `services/ingest_loop.py`) -/

/-- Status values of an `IngestRun`. -/
inductive RunStatus where
  | pending
  | inProgress
  | running
  | completed
  | failed
deriving DecidableEq, Repr

/-- A persisted `IngestRun` row. -/
structure RunRec where
  id : Nat
  status : RunStatus
  startedAt : Nat
deriving DecidableEq, Repr

/-- `get_latest_ingest_runs(limit=1)`: the run with the greatest start time. -/
def latestRun (runs : List RunRec) : Option RunRec :=
  runs.foldl
    (fun acc r =>
      match acc with
      | none => some r
      | some b => if r.startedAt > b.startedAt then some r else acc)
    none

/-- The status list checked by `trigger_ingest`. -/
def blockedStatus (s : RunStatus) : Bool :=
  s == RunStatus.pending || s == RunStatus.inProgress || s == RunStatus.running

/-- `trigger_ingest`: refuse with a 409 when the latest run is pending or
running, else create a new pending run. -/
def triggerIngest (runs : List RunRec) (newId now : Nat) :
    Except String (List RunRec) :=
  match latestRun runs with
  | some r =>
      if blockedStatus r.status then
        Except.error "Another ingest run is already in progress"
      else Except.ok (runs ++ [⟨newId, RunStatus.pending, now⟩])
  | none => Except.ok (runs ++ [⟨newId, RunStatus.pending, now⟩])

/-- State seen by the loop service: the persisted runs and the in-memory
`current_run_id` marker. -/
structure LoopState where
  runs : List RunRec
  currentRunId : Option Nat
deriving DecidableEq, Repr

/-- `IngestLoopService._run_single_ingest` up to the point where
`run_ingestion` has set the created run to `running`: skip when the
in-memory marker is set, else create the run and start it. The flag records
whether the cycle was skipped. -/
def runSingleIngest (st : LoopState) (newId now : Nat) : LoopState × Bool :=
  if st.currentRunId.isSome then (st, true)
  else ({ runs := st.runs ++ [⟨newId, RunStatus.running, now⟩],
          currentRunId := some newId }, false)

/-- Number of runs in `running` state. -/
def runningCount (runs : List RunRec) : Nat :=
  runs.countP fun r => r.status == RunStatus.running

/-- A persisted running run not tracked by the loop marker (e.g. started via
the API endpoint, whose background task holds no loop state). -/
def apiStartedRun : RunRec := ⟨1, RunStatus.running, 0⟩

/-- C5 counterexample: with one run already `running` but the loop marker
clear, the loop's start operation does not skip; it creates and starts a
second run, leaving two runs `running` system-wide. -/
theorem second_running_run_counterexample :
    runningCount [apiStartedRun] = 1 ∧
    (runSingleIngest ⟨[apiStartedRun], none⟩ 2 5).2 = false ∧
    runningCount (runSingleIngest ⟨[apiStartedRun], none⟩ 2 5).1.runs = 2 := by
  decide

/-- C5 amended: the API trigger refuses with the "already in progress" 409
and creates no run whenever the most recent run is pending/in-progress/
running; the loop's start skips and creates no run whenever its own
in-memory marker is set. Neither guard looks further. -/
theorem single_flight_guards (runs : List RunRec) (newId now : Nat) (r : RunRec)
    (st : LoopState) :
    (latestRun runs = some r → blockedStatus r.status = true →
      triggerIngest runs newId now =
        Except.error "Another ingest run is already in progress") ∧
    (st.currentRunId.isSome = true → runSingleIngest st newId now = (st, true)) := by
  constructor
  · intro hl hb
    simp [triggerIngest, hl, hb]
  · intro hm
    simp [runSingleIngest, hm]

theorem single_flight_guards_witness :
    triggerIngest [apiStartedRun] 2 5 =
      Except.error "Another ingest run is already in progress" ∧
    runSingleIngest ⟨[apiStartedRun], some 1⟩ 2 5 = (⟨[apiStartedRun], some 1⟩, true) := by
  have h := single_flight_guards [apiStartedRun] 2 5 apiStartedRun ⟨[apiStartedRun], some 1⟩
  exact ⟨h.1 (by decide) (by decide), h.2 (by decide)⟩
